import Mathlib

/-!
Verification of the incremental sync engine of the `ch` repository.

The development shallowly embeds the Go sources:
  * `internal/jsonl` (types.go, content.go, the streaming parser),
  * `internal/sync` (mapper.go, span.go, syncer.go),
  * `internal/syncdb` (the SQLite-backed state store),
and proves the testable properties of the specification against the
embedding.

Modelling conventions:
  * Byte strings (Go `string` / `[]byte` / `json.RawMessage`) are Lean
    `String`s; file contents are `List Char`, one `Char` per byte, so
    byte offsets are list indices.
  * Functions of the Go standard library that the engine calls but that
    are not code of this repository (SHA-256, RFC 3339 parsing,
    `json.Unmarshal`) are collected in a `Stdlib` record of function
    parameters; every theorem quantifies over them.  What the engine
    feeds to them and what it does with their results is embedded
    exactly.
  * The SQLite store is embedded as pure data (three tables) with the
    operations of `syncdb`; `INSERT OR REPLACE`, `DELETE` and `SELECT`
    become list operations keyed the way the SQL is keyed.
  * Per-entry store query failures are injected through an `Env` oracle,
    mirroring that the Go `IsSynced` returns `(false, err)` when its
    `Scan` fails and that `RecordSyncedMessage` leaves the table
    unchanged when its `Exec` fails.
  * The bounded worker pool of `SyncAll` is modelled as a sequential
    fold over the file list: per-file results are aggregated by
    commutative operations (sum, count, multiset of errors), and the
    store serialises writes, so a linearisation is faithful for the
    aggregate properties treated here.
  * The wall clock (`time.Now()`) is an explicit `now` input.
-/

set_option autoImplicit false

namespace Ch

/-! ## Standard-library primitives used by the engine (parameters) -/

/-- A fully parsed message content block (jsonl/types.go `ContentBlock`). -/
structure ContentBlock where
  type : String
  text : String := ""
  thinking : String := ""
  id : String := ""
  name : String := ""
  input : Option String := none
  toolUseId : String := ""
  content : Option String := none
  isError : Bool := false
deriving DecidableEq, Repr

/-- A fully parsed message (jsonl/types.go `Message`). -/
structure Message where
  role : String := ""
  model : String := ""
  content : List ContentBlock := []
deriving DecidableEq, Repr

/-- A raw JSONL entry with the message payload kept as uninterpreted
bytes (jsonl/types.go `RawEntry`).  `message = none` models a `nil`
`json.RawMessage`. -/
structure RawEntry where
  type : String
  timestamp : String := ""
  uuid : String := ""
  parentUuid : String := ""
  sessionId : String := ""
  isSidechain : Bool := false
  agentId : String := ""
  cwd : String := ""
  message : Option String := none
  summary : String := ""
deriving DecidableEq, Repr

/-- The Go standard-library functions the engine calls.  They are not
code of this repository, so they are parameters of the embedding:
`sha256hex b` is the 64-character hex encoding of the SHA-256 digest of
the bytes `b`; the two parse functions model `time.Parse` with the
RFC 3339 and RFC 3339-nano layouts (`none` = error); `unmarshalMessage`
models `json.Unmarshal` of a payload into `Message` (custom content
decoding included); `decodeEntry` models `json.Unmarshal` of one line
into `RawEntry`. -/
structure Stdlib where
  sha256hex : String → String
  parseRFC3339 : String → Option Int
  parseRFC3339Nano : String → Option Int
  unmarshalMessage : String → Except String Message
  decodeEntry : List Char → Except String RawEntry

/-! ## jsonl: entry-type constants and content helpers (types.go, content.go) -/

def EntryTypeUser : String := "user"
def EntryTypeAssistant : String := "assistant"
def EntryTypeSummary : String := "summary"
def EntryTypeSystem : String := "system"

/-- content.go `ExtractText`: joins the nonempty `text` fields of the
text blocks with newlines; the `nil` receiver is `none`. -/
def ExtractText (msg : Option Message) : String :=
  match msg with
  | none => ""
  | some m =>
    String.intercalate "\n"
      ((m.content.filter (fun b => b.type = "text" ∧ b.text ≠ "")).map (fun b => b.text))

/-- content.go `ExtractThinking`. -/
def ExtractThinking (msg : Option Message) : String :=
  match msg with
  | none => ""
  | some m =>
    String.intercalate "\n"
      ((m.content.filter (fun b => b.type = "thinking" ∧ b.thinking ≠ "")).map
        (fun b => b.thinking))

/-- content.go `ExtractToolCalls`. -/
def ExtractToolCalls (msg : Option Message) : List String :=
  match msg with
  | none => []
  | some m =>
    (m.content.filter (fun b => b.type = "tool_use" ∧ b.name ≠ "")).map (fun b => b.name)

/-- parser.go `ParseMessage`: a `nil` payload parses to no message; an
unmarshal failure is wrapped as in the source. -/
def ParseMessage (lib : Stdlib) (entry : RawEntry) : Except String (Option Message) :=
  match entry.message with
  | none => Except.ok none
  | some raw =>
    match lib.unmarshalMessage raw with
    | Except.ok m => Except.ok (some m)
    | Except.error e => Except.error ("parsing message: " ++ e)

/-! ## Span data model (span.go) -/

/-- span.go `SpanKind`. -/
inductive SpanKind where
  | trace
  | generation
  | span
deriving DecidableEq, Repr

/-- A value of the freeform metadata map (Go `map[string]interface{}`);
the mapper only ever stores strings and string lists. -/
inductive MetaValue where
  | str (s : String)
  | strList (l : List String)
deriving DecidableEq, Repr

/-- span.go `Span`.  The metadata map is kept as an association list in
insertion order. -/
structure Span where
  id : String
  traceId : String := ""
  parentId : String := ""
  startTime : Int
  endTime : Int
  kind : SpanKind
  name : String
  input : String := ""
  output : String := ""
  metadata : List (String × MetaValue) := []
  model : String := ""
  tokensIn : Nat := 0
  tokensOut : Nat := 0
  isStreaming : Bool := false
  toolName : String := ""
  toolResult : String := ""
  isError : Bool := false
  sourceFile : String
  sourceLine : Nat
deriving DecidableEq, Repr

/-! ## Span mapper (mapper.go) -/

/-- The bytes `h.Write(entry.Message)` appends: nothing for a `nil`
payload. -/
def msgBytes (m : Option String) : String :=
  match m with
  | none => ""
  | some s => s

/-- mapper.go `parseTimestamp`: RFC 3339, then RFC 3339-nano, then the
current wall clock `now`. -/
def parseTimestamp (lib : Stdlib) (now : Int) (ts : String) : Int :=
  if ts = "" then now
  else
    match lib.parseRFC3339 ts with
    | some t => t
    | none =>
      match lib.parseRFC3339Nano ts with
      | some t => t
      | none => now

/-- mapper.go `generateSpanID`: the entry UUID verbatim when nonempty,
else the first 16 hex characters of SHA-256 over the written byte
sequence (file path, decimal line number, timestamp, payload bytes). -/
def generateSpanID (lib : Stdlib) (filePath : String) (lineNum : Nat) (entry : RawEntry) :
    String :=
  if entry.uuid ≠ "" then entry.uuid
  else
    (lib.sha256hex (filePath ++ toString lineNum ++ entry.timestamp ++ msgBytes entry.message)).take 16

/-- mapper.go `GenerateMessageHash`: the first 32 hex characters of
SHA-256 over (type, session id, timestamp, uuid, payload bytes). -/
def GenerateMessageHash (lib : Stdlib) (entry : RawEntry) : String :=
  (lib.sha256hex
    (entry.type ++ entry.sessionId ++ entry.timestamp ++ entry.uuid ++
      msgBytes entry.message)).take 32

/-- mapper.go `mapUserMessage`. -/
def mapUserMessage (lib : Stdlib) (now : Int) (filePath : String) (lineNum : Nat)
    (entry : RawEntry) : Except String (Option Span) :=
  match ParseMessage lib entry with
  | Except.error e => Except.error ("parsing user message: " ++ e)
  | Except.ok msg =>
    let text := ExtractText msg
    let ts := parseTimestamp lib now entry.timestamp
    Except.ok (some
      { id := generateSpanID lib filePath lineNum entry
        traceId := entry.sessionId
        kind := SpanKind.span
        name := "user-message"
        startTime := ts
        endTime := ts
        input := text
        sourceFile := filePath
        sourceLine := lineNum
        metadata := [("uuid", MetaValue.str entry.uuid),
                     ("parent_uuid", MetaValue.str entry.parentUuid)] })

/-- mapper.go `mapAssistantMessage`.  Metadata receives `thinking`,
`tool_calls` and `uuid` in that insertion order, each only when
nonempty. -/
def mapAssistantMessage (lib : Stdlib) (now : Int) (filePath : String) (lineNum : Nat)
    (entry : RawEntry) : Except String (Option Span) :=
  match ParseMessage lib entry with
  | Except.error e => Except.error ("parsing assistant message: " ++ e)
  | Except.ok msg =>
    let text := ExtractText msg
    let model := match msg with
      | none => ""
      | some m => m.model
    let ts := parseTimestamp lib now entry.timestamp
    let thinking := ExtractThinking msg
    let tools := ExtractToolCalls msg
    let md1 : List (String × MetaValue) :=
      if msg ≠ none ∧ thinking ≠ "" then [("thinking", MetaValue.str thinking)] else []
    let md2 : List (String × MetaValue) :=
      if msg ≠ none ∧ tools ≠ [] then [("tool_calls", MetaValue.strList tools)] else []
    let md3 : List (String × MetaValue) :=
      if entry.uuid ≠ "" then [("uuid", MetaValue.str entry.uuid)] else []
    Except.ok (some
      { id := generateSpanID lib filePath lineNum entry
        traceId := entry.sessionId
        kind := SpanKind.generation
        name := "assistant-generation"
        startTime := ts
        endTime := ts
        output := text
        model := model
        sourceFile := filePath
        sourceLine := lineNum
        metadata := md1 ++ md2 ++ md3 })

/-- mapper.go `mapSummary`. -/
def mapSummary (lib : Stdlib) (now : Int) (filePath : String) (lineNum : Nat)
    (entry : RawEntry) : Except String (Option Span) :=
  let ts := parseTimestamp lib now entry.timestamp
  Except.ok (some
    { id := generateSpanID lib filePath lineNum entry
      traceId := entry.sessionId
      kind := SpanKind.span
      name := "context-summary"
      startTime := ts
      endTime := ts
      output := entry.summary
      sourceFile := filePath
      sourceLine := lineNum })

/-- mapper.go `mapSystemMessage`. -/
def mapSystemMessage (lib : Stdlib) (now : Int) (filePath : String) (lineNum : Nat)
    (entry : RawEntry) : Except String (Option Span) :=
  match ParseMessage lib entry with
  | Except.error e => Except.error ("parsing system message: " ++ e)
  | Except.ok msg =>
    let text := ExtractText msg
    let ts := parseTimestamp lib now entry.timestamp
    Except.ok (some
      { id := generateSpanID lib filePath lineNum entry
        traceId := entry.sessionId
        kind := SpanKind.span
        name := "system-message"
        startTime := ts
        endTime := ts
        input := text
        sourceFile := filePath
        sourceLine := lineNum })

/-- mapper.go `MapEntry`: dispatch on the entry discriminant; unknown
types produce no span and no error. -/
def MapEntry (lib : Stdlib) (now : Int) (filePath : String) (entry : RawEntry)
    (lineNum : Nat) : Except String (Option Span) :=
  if entry.type = EntryTypeUser then mapUserMessage lib now filePath lineNum entry
  else if entry.type = EntryTypeAssistant then mapAssistantMessage lib now filePath lineNum entry
  else if entry.type = EntryTypeSummary then mapSummary lib now filePath lineNum entry
  else if entry.type = EntryTypeSystem then mapSystemMessage lib now filePath lineNum entry
  else Except.ok none

/-! ## Streaming JSONL parser (jsonl parser source)

A file is a byte sequence; `splitLines` models the `bufio.Scanner` line
splitter (tokens between newline bytes; like `strings.Split`, a
trailing newline contributes a final empty token, which the parser
skips just as the scanner simply ends). -/

/-- jsonl parser `MaxScannerBuffer`: 10 MiB. -/
def MaxScannerBuffer : Nat := 10 * 1024 * 1024

/-- Split a byte sequence into newline-separated tokens. -/
def splitLines : List Char → List (List Char)
  | [] => [[]]
  | c :: rest =>
    match splitLines rest with
    | [] => [[]]
    | l :: ls => if c = '\n' then [] :: l :: ls else (c :: l) :: ls

/-- parser.go `Next` on the remaining tokens: a token beyond the
scanner bound fails the scan (`bufio.ErrTooLong`); empty tokens are
skipped by recursion; a nonempty token is JSON-decoded, a decode
failure aborting with the wrapped error.  Returns the entry (or `none`
at end of stream) together with the unconsumed tokens. -/
def parserNext (lib : Stdlib) :
    List (List Char) → Except String (Option RawEntry × List (List Char))
  | [] => Except.ok (none, [])
  | l :: rest =>
    if MaxScannerBuffer < l.length then Except.error "scanning: token too long"
    else if l = [] then parserNext lib rest
    else
      match lib.decodeEntry l with
      | Except.ok e => Except.ok (some e, rest)
      | Except.error e => Except.error ("parsing JSON: " ++ e)

/-- parser.go `ParseAll`: iterate `Next` until end of stream, returning
the entries read so far and the first error, if any.  Iteration stops
at the first erroring line. -/
def parseAllLines (lib : Stdlib) :
    List (List Char) → List RawEntry × Option String
  | [] => ([], none)
  | l :: rest =>
    if MaxScannerBuffer < l.length then ([], some "scanning: token too long")
    else if l = [] then parseAllLines lib rest
    else
      match lib.decodeEntry l with
      | Except.error e => ([], some ("parsing JSON: " ++ e))
      | Except.ok e =>
        match parseAllLines lib rest with
        | (es, r) => (e :: es, r)

/-! ## Sync state store (syncdb: db.go and the state/dedup/error table code) -/

/-- syncdb `SyncState`: one row of the `sync_state` table. -/
structure SyncState where
  filePath : String
  lastOffset : Nat
  lastSize : Nat
  lastMtime : Int
  traceId : String
  messageCount : Nat
  lastSyncAt : Int
  backend : String
deriving DecidableEq, Repr

/-- One row of the `synced_messages` dedup table, keyed by
(filePath, messageHash). -/
structure SyncedRow where
  filePath : String
  messageHash : String
  spanId : String
  syncedAt : Int
deriving DecidableEq, Repr

/-- One row of the append-only `sync_errors` table. -/
structure ErrorRow where
  filePath : String
  errorMessage : String
  occurredAt : Int
deriving DecidableEq, Repr

/-- The three logical tables of the store. -/
structure Store where
  states : List SyncState
  synced : List SyncedRow
  errors : List ErrorRow
deriving DecidableEq, Repr

def Store.empty : Store := ⟨[], [], []⟩

namespace Store

/-- syncdb `GetState`: `SELECT ... WHERE file_path = ?` (at most one row
by primary key). -/
def GetState (st : Store) (path : String) : Option SyncState :=
  st.states.find? (fun s => s.filePath = path)

/-- syncdb `SaveState`: `INSERT OR REPLACE` keyed by `file_path`. -/
def SaveState (st : Store) (s : SyncState) : Store :=
  { st with states := s :: st.states.filter (fun t => ¬ t.filePath = s.filePath) }

/-- syncdb `DeleteState`: `DELETE FROM sync_state WHERE file_path = ?`. -/
def DeleteState (st : Store) (path : String) : Store :=
  { st with states := st.states.filter (fun t => ¬ t.filePath = path) }

/-- syncdb `RecordSyncedMessage`: `INSERT OR REPLACE` keyed by
(file_path, message_hash). -/
def RecordSyncedMessage (st : Store) (path hash spanId : String) (now : Int) : Store :=
  { st with synced := ⟨path, hash, spanId, now⟩ ::
      st.synced.filter (fun r => ¬ (r.filePath = path ∧ r.messageHash = hash)) }

/-- syncdb `IsSynced` without failure: `SELECT COUNT(*) ... > 0`. -/
def IsSynced (st : Store) (path hash : String) : Bool :=
  st.synced.any (fun r => r.filePath = path ∧ r.messageHash = hash)

/-- syncdb `ClearFileMessages`: `DELETE FROM synced_messages WHERE
file_path = ?`. -/
def ClearFileMessages (st : Store) (path : String) : Store :=
  { st with synced := st.synced.filter (fun r => ¬ r.filePath = path) }

/-- syncdb `RecordError`: append an error row. -/
def RecordError (st : Store) (path msg : String) (now : Int) : Store :=
  { st with errors := st.errors ++ [⟨path, msg, now⟩] }

end Store

/-! ## Sync coordinator (syncer.go) -/

/-- The environment of one sync pass: the standard-library primitives,
the backend behaviour (`sendOk span = true` iff `SendSpan` returns no
error on that span), fault oracles for the two per-entry store
operations whose errors the coordinator discards, the wall clock, and
the backend name. -/
structure Env where
  lib : Stdlib
  sendOk : Span → Bool
  isSyncedErr : String → String → Bool
  recordSyncedErr : String → String → Bool
  now : Int
  backendName : String

/-- syncdb `IsSynced` as called by the coordinator: when the query
fails, the Go function returns `(false, err)` because `count` keeps its
zero value. -/
def dbIsSynced (env : Env) (st : Store) (path hash : String) : Bool × Option String :=
  if env.isSyncedErr path hash = true then (false, some "query error")
  else (Store.IsSynced st path hash, none)

/-- syncdb `RecordSyncedMessage` as called by the coordinator: when the
`Exec` fails, the table is unchanged and an error is returned. -/
def dbRecordSynced (env : Env) (st : Store) (path hash spanId : String) :
    Store × Option String :=
  if env.recordSyncedErr path hash = true then (st, some "exec error")
  else (Store.RecordSyncedMessage st path hash spanId env.now, none)

/-- syncer.go `SyncerOptions`. -/
structure SyncerOptions where
  dbPath : String
  projectsDir : String
  workers : Int
  dryRun : Bool

/-- syncer.go `Syncer`.  `hasDB` models `db != nil`. -/
structure Syncer where
  hasDB : Bool
  projectsDir : String
  workers : Int
  dryRun : Bool

/-- syncer.go `NewSyncer`: workers coerced to 4 when nonpositive; the
database is opened only when not in dry-run (`syncdb.Open` succeeding is
assumed; on failure the constructor returns no `Syncer` at all). -/
def NewSyncer (opts : SyncerOptions) : Syncer :=
  { hasDB := !opts.dryRun
    projectsDir := opts.projectsDir
    workers := if opts.workers ≤ 0 then 4 else opts.workers
    dryRun := opts.dryRun }

/-- syncer.go `shouldRecord`. -/
def Syncer.shouldRecord (s : Syncer) : Bool :=
  !s.dryRun && s.hasDB

/-- Result of `processAndSendEntry`: whether the entry was sent, the
store afterwards, and the error, if any. -/
structure SendResult where
  sent : Bool
  store : Store
  err : Option String
deriving DecidableEq, Repr

/-- syncer.go `processAndSendEntry`: dedup check (its query error is
discarded, the entry then counting as not yet synced), backend send
(an error aborts), then dedup record (its error is discarded). -/
def processAndSendEntry (env : Env) (sy : Syncer) (st : Store) (entry : RawEntry)
    (span : Span) (path : String) : SendResult :=
  if sy.shouldRecord = true ∧
      (dbIsSynced env st path (GenerateMessageHash env.lib entry)).1 = true then
    ⟨false, st, none⟩
  else if env.sendOk span = false then
    ⟨false, st, some "sending span: backend error"⟩
  else if sy.shouldRecord = true then
    ⟨true, (dbRecordSynced env st path (GenerateMessageHash env.lib entry) span.id).1, none⟩
  else ⟨true, st, none⟩

/-- Result of `processEntries`. -/
structure ProcResult where
  spans : Nat
  traceId : String
  lineNum : Nat
  store : Store
  emitted : List Span
  err : Option String
deriving DecidableEq, Repr

/-- syncer.go `processEntries`, with the parser `Next` loop inlined on
the token list of the remaining bytes (compare `parserNext`): skip
empty tokens; abort on scan or JSON errors; count lines; latch the
first nonempty session id as trace id; on mapper error record it (when
a database is present) and continue; skip unmapped entries; send the
rest, aborting the pass on a backend error.  `emitted` collects the
successfully sent spans in order. -/
def processEntries (env : Env) (sy : Syncer) (path : String) :
    Store → Nat → String → List (List Char) → ProcResult
  | st, lineNum, traceId, [] => ⟨0, traceId, lineNum, st, [], none⟩
  | st, lineNum, traceId, l :: rest =>
    if MaxScannerBuffer < l.length then
      ⟨0, traceId, lineNum, st, [], some "parsing entry: scanning: token too long"⟩
    else if l = [] then processEntries env sy path st lineNum traceId rest
    else
      match env.lib.decodeEntry l with
      | Except.error e =>
        ⟨0, traceId, lineNum, st, [], some ("parsing entry: parsing JSON: " ++ e)⟩
      | Except.ok entry =>
        let lineNum' := lineNum + 1
        let traceId' := if traceId = "" ∧ entry.sessionId ≠ "" then entry.sessionId else traceId
        match MapEntry env.lib env.now path entry lineNum' with
        | Except.error e =>
          let st' := if sy.hasDB = true then Store.RecordError st path e env.now else st
          processEntries env sy path st' lineNum' traceId' rest
        | Except.ok none => processEntries env sy path st lineNum' traceId' rest
        | Except.ok (some span) =>
          let r := processAndSendEntry env sy st entry span path
          match r.err with
          | some e => ⟨0, traceId', lineNum', r.store, [], some e⟩
          | none =>
            let res := processEntries env sy path r.store lineNum' traceId' rest
            ⟨(if r.sent = true then 1 else 0) + res.spans, res.traceId, res.lineNum,
              res.store, (if r.sent = true then [span] else []) ++ res.emitted, res.err⟩

/-- syncer.go `syncStrategy`. -/
structure Strategy where
  offset : Nat
  lineNum : Nat
  needsResync : Bool
deriving DecidableEq, Repr

/-- syncer.go `determineSyncStrategy`: full resync without a recording
database or without prior state; on shrink, clear the dedup set and
delete the state row, then full resync; unchanged (size, mtime) is a
no-op (`none`); otherwise incremental from the stored offset and entry
count. -/
def determineSyncStrategy (sy : Syncer) (st : Store) (path : String) (currentSize : Nat)
    (currentMtime : Int) : Option Strategy × Store :=
  if sy.shouldRecord = false then (some ⟨0, 0, true⟩, st)
  else
    match Store.GetState st path with
    | none => (some ⟨0, 0, true⟩, st)
    | some state =>
      if currentSize < state.lastSize then
        (some ⟨0, 0, true⟩, Store.DeleteState (Store.ClearFileMessages st path) path)
      else if currentMtime = state.lastMtime ∧ currentSize = state.lastSize then
        (none, st)
      else (some ⟨state.lastOffset, state.messageCount, false⟩, st)

/-- What `os.Stat` and `os.Open` observe of one file: its bytes and its
modification time (Unix seconds). -/
structure FileInfo where
  content : List Char
  mtime : Int
deriving DecidableEq, Repr

/-- The file system visible to one pass: `none` models a stat failure. -/
def FS : Type := String → Option FileInfo

/-- Result of `syncFile`. -/
structure FileResult where
  spans : Nat
  updated : Bool
  err : Option String
  store : Store
  emitted : List Span
deriving DecidableEq, Repr

/-- syncer.go `syncFile`: stat, strategy, seek to the strategy offset,
process the remaining entries, then persist the new state row (offset =
position after end of stream, size and mtime as observed by the stat).
On a processing error the partial state is not saved. -/
def syncFile (env : Env) (sy : Syncer) (st : Store) (fs : FS) (path : String) : FileResult :=
  match fs path with
  | none => ⟨0, false, some "stat file", st, []⟩
  | some fi =>
    let currentSize := fi.content.length
    match determineSyncStrategy sy st path currentSize fi.mtime with
    | (none, st1) => ⟨0, false, none, st1, []⟩
    | (some strat, st1) =>
      let remaining := fi.content.drop strat.offset
      let r := processEntries env sy path st1 strat.lineNum "" (splitLines remaining)
      match r.err with
      | some e => ⟨r.spans, decide (0 < r.spans), some e, r.store, r.emitted⟩
      | none =>
        if sy.shouldRecord = true then
          ⟨r.spans, decide (0 < r.spans), none,
            Store.SaveState r.store
              ⟨path, strat.offset + remaining.length, currentSize, fi.mtime,
               r.traceId, r.lineNum, env.now, env.backendName⟩,
            r.emitted⟩
        else ⟨r.spans, decide (0 < r.spans), none, r.store, r.emitted⟩

/-- syncer.go `SyncResult` (the wall-clock duration is omitted). -/
structure SyncResult where
  filesScanned : Nat
  filesUpdated : Nat
  spansSynced : Nat
  errors : List (String × String)
deriving DecidableEq, Repr

/-- The aggregate of the worker-pool loop of `SyncAll`. -/
structure RunAcc where
  updated : Nat
  spans : Nat
  errors : List (String × String)
  store : Store
  emitted : List Span
deriving DecidableEq, Repr

/-- The worker-pool loop of `SyncAll`, linearised: per-file results are
aggregated exactly as the result-channel loop does — an erroring file
contributes only its error, a successful file adds its span count and
its updated flag.  `emitted` collects every successfully emitted span
across all files, erroring ones included. -/
def runAll (env : Env) (sy : Syncer) (fs : FS) : Store → List String → RunAcc
  | st, [] => ⟨0, 0, [], st, []⟩
  | st, path :: rest =>
    let r := syncFile env sy st fs path
    let acc := runAll env sy fs r.store rest
    match r.err with
    | some e =>
      ⟨acc.updated, acc.spans, (path, e) :: acc.errors, acc.store, r.emitted ++ acc.emitted⟩
    | none =>
      ⟨acc.updated + (if r.updated = true then 1 else 0), acc.spans + r.spans, acc.errors,
        acc.store, r.emitted ++ acc.emitted⟩

/-- syncer.go `SyncAll` over a given discovered file list: aggregate
the per-file results.  Returns the result, the final store, and the
full emission log. -/
def SyncAll (env : Env) (sy : Syncer) (st : Store) (fs : FS) (files : List String) :
    SyncResult × Store × List Span :=
  let acc := runAll env sy fs st files
  (⟨files.length, acc.updated, acc.spans, acc.errors⟩, acc.store, acc.emitted)

/-! ## Specification-side reference definitions

These definitions restate phrases of the specification in their own
words; the claim theorems compare them with the embedded source
functions above. -/

/-- The span identifier policy as worded by the spec: the entry UUID
verbatim when present, otherwise the first 16 hex characters of SHA-256
over (file path, line number, timestamp, payload bytes). -/
def spanIdSpec (lib : Stdlib) (filePath : String) (lineNum : Nat) (entry : RawEntry) :
    String :=
  if entry.uuid = "" then
    (lib.sha256hex
      (filePath ++ toString lineNum ++ entry.timestamp ++ msgBytes entry.message)).take 16
  else entry.uuid

/-- The content hash as worded by the spec: SHA-256 over (discriminant,
session id, timestamp, entry UUID, payload bytes) truncated to 32 hex
characters. -/
def contentHashSpec (lib : Stdlib) (entry : RawEntry) : String :=
  (lib.sha256hex
    (entry.type ++ entry.sessionId ++ entry.timestamp ++ entry.uuid ++
      msgBytes entry.message)).take 32

/-- The spans produced by mapping the entries of the given tokens at
consecutive line numbers, minus entries that map to none (and minus
mapper errors, which the coordinator skips). -/
def mappedSpans (lib : Stdlib) (now : Int) (path : String) :
    Nat → List (List Char) → List Span
  | _, [] => []
  | n, l :: rest =>
    if l = [] then mappedSpans lib now path n rest
    else
      match lib.decodeEntry l with
      | Except.error _ => []
      | Except.ok e =>
        match MapEntry lib now path e (n + 1) with
        | Except.ok (some s) => s :: mappedSpans lib now path (n + 1) rest
        | _ => mappedSpans lib now path (n + 1) rest

/-- Every token is within the scanner bound and, when nonempty, decodes
as JSON; the token stream produces no parse abort. -/
def decodeOk (lib : Stdlib) : List (List Char) → Bool
  | [] => true
  | l :: rest =>
    if MaxScannerBuffer < l.length then false
    else if l = [] then decodeOk lib rest
    else
      match lib.decodeEntry l with
      | Except.error _ => false
      | Except.ok _ => decodeOk lib rest

/-- A clean pass over the tokens from the given store: no scan or JSON
or mapper errors, and every mapped span is actually sent (not
deduplicated, backend succeeding), threading the store exactly as the
coordinator does. -/
def cleanRun (env : Env) (sy : Syncer) (path : String) :
    Store → Nat → List (List Char) → Bool
  | _, _, [] => true
  | st, n, l :: rest =>
    if MaxScannerBuffer < l.length then false
    else if l = [] then cleanRun env sy path st n rest
    else
      match env.lib.decodeEntry l with
      | Except.error _ => false
      | Except.ok e =>
        match MapEntry env.lib env.now path e (n + 1) with
        | Except.error _ => false
        | Except.ok none => cleanRun env sy path st (n + 1) rest
        | Except.ok (some s) =>
          let r := processAndSendEntry env sy st e s path
          r.sent && cleanRun env sy path r.store (n + 1) rest

/-- A token on which iteration errors: beyond the scanner bound, or
nonempty and not valid JSON. -/
def errLine (lib : Stdlib) (l : List Char) : Bool :=
  if MaxScannerBuffer < l.length then true
  else if l = [] then false
  else
    match lib.decodeEntry l with
    | Except.error _ => true
    | Except.ok _ => false

/-! ## Helper lemmas about the store -/

theorem find?_filter_of_imp {α : Type} (p q : α → Bool) (l : List α)
    (h : ∀ x, p x = true → q x = true) :
    (l.filter q).find? p = l.find? p := by
  induction l with
  | nil => rfl
  | cons x xs ih =>
    cases hq : q x with
    | true =>
      cases hp : p x with
      | true => simp [List.filter_cons, hq, List.find?_cons, hp]
      | false => simp [List.filter_cons, hq, List.find?_cons, hp, ih]
    | false =>
      have hp : p x = false := by
        cases hpx : p x with
        | true => exact absurd (h x hpx) (by simp [hq])
        | false => rfl
      simp [List.filter_cons, hq, List.find?_cons, hp, ih]

theorem find?_states_filter_ne (l : List SyncState) (a b : String) (h : ¬ a = b) :
    (l.filter (fun t => ¬ t.filePath = b)).find? (fun s => s.filePath = a) =
      l.find? (fun s => s.filePath = a) := by
  apply find?_filter_of_imp
  intro x hx
  simp only [decide_eq_true_eq] at hx ⊢
  intro hb
  exact h (by rw [← hx, hb])

theorem getState_saveState_self (st : Store) (s : SyncState) :
    Store.GetState (Store.SaveState st s) s.filePath = some s := by
  simp [Store.GetState, Store.SaveState, List.find?_cons]

theorem getState_saveState_ne (st : Store) (s : SyncState) (a : String)
    (h : ¬ a = s.filePath) :
    Store.GetState (Store.SaveState st s) a = Store.GetState st a := by
  have hs : ¬ s.filePath = a := fun hh => h hh.symm
  rw [Store.GetState, Store.SaveState]
  simp only [List.find?_cons]
  rw [show (decide (s.filePath = a)) = false by simp [hs]]
  exact find?_states_filter_ne st.states a s.filePath h

theorem getState_deleteState_self (st : Store) (b : String) :
    Store.GetState (Store.DeleteState st b) b = none := by
  rw [Store.GetState, List.find?_eq_none]
  intro x hx
  simp only [Store.DeleteState, List.mem_filter, decide_eq_true_eq] at hx
  simp [hx.2]

theorem getState_deleteState_ne (st : Store) (a b : String) (h : ¬ a = b) :
    Store.GetState (Store.DeleteState st b) a = Store.GetState st a :=
  find?_states_filter_ne st.states a b h

theorem getState_clearFileMessages (st : Store) (p a : String) :
    Store.GetState (Store.ClearFileMessages st p) a = Store.GetState st a := rfl

theorem getState_recordError (st : Store) (p m : String) (now : Int) (a : String) :
    Store.GetState (Store.RecordError st p m now) a = Store.GetState st a := rfl

theorem getState_recordSyncedMessage (st : Store) (p h s : String) (now : Int) (a : String) :
    Store.GetState (Store.RecordSyncedMessage st p h s now) a = Store.GetState st a := rfl

/-! ## Helper lemmas about the coordinator -/

theorem processAndSendEntry_states (env : Env) (sy : Syncer) (st : Store) (e : RawEntry)
    (sp : Span) (path : String) :
    (processAndSendEntry env sy st e sp path).store.states = st.states := by
  rw [processAndSendEntry]
  split
  · rfl
  · split
    · rfl
    · split
      · rw [dbRecordSynced]
        split <;> rfl
      · rfl

theorem processEntries_states (env : Env) (sy : Syncer) (path : String) :
    ∀ (lines : List (List Char)) (st : Store) (n : Nat) (tid : String),
      (processEntries env sy path st n tid lines).store.states = st.states := by
  intro lines
  induction lines with
  | nil => intro st n tid; rfl
  | cons l rest ih =>
    intro st n tid
    rw [processEntries]
    split
    · rfl
    · split
      · exact ih st n tid
      · split
        · rfl
        · dsimp only
          split
          · rw [ih]
            split <;> rfl
          · exact ih _ _ _
          · split
            · exact processAndSendEntry_states env sy st _ _ path
            · rw [ih, processAndSendEntry_states]

theorem processEntries_spans_emitted (env : Env) (sy : Syncer) (path : String) :
    ∀ (lines : List (List Char)) (st : Store) (n : Nat) (tid : String),
      (processEntries env sy path st n tid lines).spans =
        (processEntries env sy path st n tid lines).emitted.length := by
  intro lines
  induction lines with
  | nil => intro st n tid; rfl
  | cons l rest ih =>
    intro st n tid
    rw [processEntries]
    split
    · rfl
    · split
      · exact ih st n tid
      · split
        · rfl
        · dsimp only
          split
          · exact ih _ _ _
          · exact ih _ _ _
          · split
            · rfl
            · simp only [List.length_append]
              rw [ih]
              split <;> simp

theorem syncFile_spans_emitted (env : Env) (sy : Syncer) (st : Store) (fs : FS)
    (path : String) :
    (syncFile env sy st fs path).spans = (syncFile env sy st fs path).emitted.length := by
  rw [syncFile]
  split
  · rfl
  · dsimp only
    split
    · rfl
    · split
      · exact processEntries_spans_emitted env sy path _ _ _ _
      · split
        · exact processEntries_spans_emitted env sy path _ _ _ _
        · exact processEntries_spans_emitted env sy path _ _ _ _

theorem determineSyncStrategy_getState_ne (sy : Syncer) (st : Store) (b : String)
    (size : Nat) (mtime : Int) (a : String) (h : ¬ a = b) :
    Store.GetState (determineSyncStrategy sy st b size mtime).2 a = Store.GetState st a := by
  rw [determineSyncStrategy]
  split
  · rfl
  · split
    · rfl
    · split
      · exact getState_deleteState_ne _ a b h
      · split
        · rfl
        · rfl

theorem getState_of_states_eq (st1 st2 : Store) (a : String) (h : st1.states = st2.states) :
    Store.GetState st1 a = Store.GetState st2 a := by
  rw [Store.GetState, Store.GetState, h]

theorem syncFile_getState_ne (env : Env) (sy : Syncer) (st : Store) (fs : FS)
    (a b : String) (h : ¬ a = b) :
    Store.GetState (syncFile env sy st fs b).store a = Store.GetState st a := by
  rw [syncFile]
  split
  · rfl
  · dsimp only
    rename_i fi heq
    rcases hstrat : determineSyncStrategy sy st b fi.content.length fi.mtime with ⟨os, st1⟩
    have h1 : Store.GetState st1 a = Store.GetState st a := by
      have := determineSyncStrategy_getState_ne sy st b fi.content.length fi.mtime a h
      rw [hstrat] at this
      exact this
    match os with
    | none => exact h1
    | some strat =>
      dsimp only
      have h2 :
          Store.GetState
            (processEntries env sy b st1 strat.lineNum ""
              (splitLines (fi.content.drop strat.offset))).store a =
            Store.GetState st a := by
        rw [getState_of_states_eq _ st1 a (processEntries_states env sy b _ _ _ _)]
        exact h1
      split
      · exact h2
      · split
        · rw [getState_saveState_ne _ _ a (by simpa using h)]
          exact h2
        · exact h2

theorem determineSyncStrategy_store_of_not_lt (sy : Syncer) (st : Store) (path : String)
    (size : Nat) (mtime : Int) (row : SyncState)
    (hrow : Store.GetState st path = some row) (hsz : ¬ size < row.lastSize) :
    (determineSyncStrategy sy st path size mtime).2 = st := by
  rw [determineSyncStrategy]
  split
  · rfl
  · simp only [hrow]
    rw [if_neg hsz]
    split <;> rfl

theorem syncFile_err_getState (env : Env) (sy : Syncer) (st : Store) (fs : FS)
    (a : String) (sta : SyncState) (e : String)
    (hrow : Store.GetState st a = some sta)
    (hfi : ∀ fi, fs a = some fi → sta.lastSize ≤ fi.content.length)
    (ha : (syncFile env sy st fs a).err = some e) :
    Store.GetState (syncFile env sy st fs a).store a = some sta := by
  rw [syncFile] at ha ⊢
  rcases hfa : fs a with _ | fi
  · exact hrow
  · rw [hfa] at ha
    dsimp only at ha ⊢
    have hsz : ¬ fi.content.length < sta.lastSize := by
      have := hfi fi hfa
      omega
    rcases hstrat : determineSyncStrategy sy st a fi.content.length fi.mtime with ⟨os, st1⟩
    have h1 : st1 = st := by
      have hd := determineSyncStrategy_store_of_not_lt sy st a fi.content.length fi.mtime
        sta hrow hsz
      rw [hstrat] at hd
      exact hd
    rw [hstrat] at ha
    subst h1
    match os with
    | none => exact hrow
    | some strat =>
      dsimp only at ha ⊢
      have h2 :
          Store.GetState
            (processEntries env sy a st1 strat.lineNum ""
              (splitLines (fi.content.drop strat.offset))).store a =
            some sta := by
        rw [getState_of_states_eq _ st1 a (processEntries_states env sy a _ _ _ _)]
        exact hrow
      rcases herr : (processEntries env sy a st1 strat.lineNum ""
          (splitLines (fi.content.drop strat.offset))).err with _ | e2
      · simp only [herr] at ha
        split at ha <;> simp at ha
      · simp only [herr] at ha ⊢
        exact h2

/-! ## Clean-run and dry-run lemmas -/

theorem processAndSendEntry_sent_err (env : Env) (sy : Syncer) (st : Store) (e : RawEntry)
    (sp : Span) (path : String) :
    (processAndSendEntry env sy st e sp path).sent = true →
    (processAndSendEntry env sy st e sp path).err = none := by
  rw [processAndSendEntry]
  split
  · simp
  · split
    · simp
    · split <;> simp

theorem processEntries_of_cleanRun (env : Env) (sy : Syncer) (path : String) :
    ∀ (lines : List (List Char)) (st : Store) (n : Nat) (tid : String),
      cleanRun env sy path st n lines = true →
      (processEntries env sy path st n tid lines).err = none ∧
      (processEntries env sy path st n tid lines).emitted =
        mappedSpans env.lib env.now path n lines ∧
      (processEntries env sy path st n tid lines).spans =
        (mappedSpans env.lib env.now path n lines).length := by
  intro lines
  induction lines with
  | nil => intro st n tid _; exact ⟨rfl, rfl, rfl⟩
  | cons l rest ih =>
    intro st n tid h
    rw [cleanRun] at h
    rw [processEntries, mappedSpans]
    by_cases h1 : MaxScannerBuffer < l.length
    · rw [if_pos h1] at h
      exact absurd h (by simp)
    · rw [if_neg h1] at h
      rw [if_neg h1]
      by_cases h2 : l = []
      · rw [if_pos h2] at h
        rw [if_pos h2, if_pos h2]
        exact ih st n tid h
      · rw [if_neg h2] at h
        rw [if_neg h2, if_neg h2]
        rcases hdec : env.lib.decodeEntry l with er | e
        · rw [hdec] at h
          exact absurd h (by simp)
        · rw [hdec] at h
          dsimp only at h ⊢
          rcases hmap : MapEntry env.lib env.now path e (n + 1) with em | os
          · rw [hmap] at h
            exact absurd h (by simp)
          · rw [hmap] at h
            match os with
            | none => exact ih _ _ _ h
            | some s =>
              dsimp only at h ⊢
              rw [Bool.and_eq_true] at h
              obtain ⟨hsent, hclean⟩ := h
              have herr := processAndSendEntry_sent_err env sy st e s path hsent
              obtain ⟨ie, iem, isp⟩ := ih (processAndSendEntry env sy st e s path).store
                (n + 1) (if tid = "" ∧ e.sessionId ≠ "" then e.sessionId else tid) hclean
              simp only [herr, hsent, if_true]
              refine ⟨ie, ?_, ?_⟩
              · rw [iem]
                simp
              · rw [isp]
                simp only [List.length_cons]
                omega

theorem processAndSendEntry_dry (env : Env) (sy : Syncer) (st : Store) (e : RawEntry)
    (sp : Span) (path : String) (h : sy.shouldRecord = false) :
    processAndSendEntry env sy st e sp path =
      if env.sendOk sp = false then ⟨false, st, some "sending span: backend error"⟩
      else ⟨true, st, none⟩ := by
  rw [processAndSendEntry, if_neg (by simp [h])]
  by_cases hs : env.sendOk sp = false
  · rw [if_pos hs, if_pos hs]
  · rw [if_neg hs, if_neg hs, if_neg (by simp [h])]

theorem processEntries_dry_store (env : Env) (sy : Syncer) (path : String)
    (hrec : sy.shouldRecord = false) (hdb : sy.hasDB = false) :
    ∀ (lines : List (List Char)) (st : Store) (n : Nat) (tid : String),
      (processEntries env sy path st n tid lines).store = st := by
  intro lines
  induction lines with
  | nil => intro st n tid; rfl
  | cons l rest ih =>
    intro st n tid
    rw [processEntries]
    split
    · rfl
    · split
      · exact ih st n tid
      · split
        · rfl
        · dsimp only
          split
          · rw [ih]
            rw [if_neg (by simp [hdb])]
          · exact ih _ _ _
          · rename_i sp heq2
            rw [processAndSendEntry_dry env sy st _ sp path hrec]
            by_cases hs : env.sendOk sp = false
            · rw [if_pos hs]
            · rw [if_neg hs]
              dsimp only
              exact ih _ _ _

theorem processEntries_dry_emits (env : Env) (sy : Syncer) (path : String)
    (hrec : sy.shouldRecord = false) (hdb : sy.hasDB = false)
    (hsend : ∀ sp, env.sendOk sp = true) :
    ∀ (lines : List (List Char)) (st : Store) (n : Nat) (tid : String),
      decodeOk env.lib lines = true →
      (processEntries env sy path st n tid lines).err = none ∧
      (processEntries env sy path st n tid lines).emitted =
        mappedSpans env.lib env.now path n lines ∧
      (processEntries env sy path st n tid lines).spans =
        (mappedSpans env.lib env.now path n lines).length := by
  intro lines
  induction lines with
  | nil => intro st n tid _; exact ⟨rfl, rfl, rfl⟩
  | cons l rest ih =>
    intro st n tid h
    rw [decodeOk] at h
    rw [processEntries, mappedSpans]
    by_cases h1 : MaxScannerBuffer < l.length
    · rw [if_pos h1] at h
      exact absurd h (by simp)
    · rw [if_neg h1] at h
      rw [if_neg h1]
      by_cases h2 : l = []
      · rw [if_pos h2] at h
        rw [if_pos h2, if_pos h2]
        exact ih st n tid h
      · rw [if_neg h2] at h
        rw [if_neg h2, if_neg h2]
        rcases hdec : env.lib.decodeEntry l with er | e
        · rw [hdec] at h
          exact absurd h (by simp)
        · rw [hdec] at h
          dsimp only at h ⊢
          rcases hmap : MapEntry env.lib env.now path e (n + 1) with em | os
          · exact ih _ _ _ h
          · match os with
            | none => exact ih _ _ _ h
            | some s =>
              dsimp only
              rw [processAndSendEntry_dry env sy st e s path hrec,
                if_neg (by simp [hsend s])]
              dsimp only
              obtain ⟨ie, iem, isp⟩ := ih st (n + 1)
                (if tid = "" ∧ e.sessionId ≠ "" then e.sessionId else tid) h
              simp only [ie]
              refine ⟨trivial, ?_, ?_⟩
              · rw [iem]
                simp
              · rw [isp]
                simp [Nat.add_comm]

theorem syncFile_dry_store (env : Env) (sy : Syncer) (st : Store) (fs : FS) (path : String)
    (hrec : sy.shouldRecord = false) (hdb : sy.hasDB = false) :
    (syncFile env sy st fs path).store = st := by
  rw [syncFile]
  split
  · rfl
  · dsimp only
    rename_i fi heq
    have hstrat : determineSyncStrategy sy st path fi.content.length fi.mtime =
        (some ⟨0, 0, true⟩, st) := by
      rw [determineSyncStrategy, if_pos hrec]
    rw [hstrat]
    dsimp only
    split
    · exact processEntries_dry_store env sy path hrec hdb _ _ _ _
    · rw [if_neg (by simp [hrec])]
      exact processEntries_dry_store env sy path hrec hdb _ _ _ _

theorem runAll_dry_store (env : Env) (sy : Syncer) (fs : FS)
    (hrec : sy.shouldRecord = false) (hdb : sy.hasDB = false) :
    ∀ (files : List String) (st : Store), (runAll env sy fs st files).store = st := by
  intro files
  induction files with
  | nil => intro st; rfl
  | cons p rest ih =>
    intro st
    rw [runAll]
    split
    · rw [ih, syncFile_dry_store env sy st fs p hrec hdb]
    · rw [ih, syncFile_dry_store env sy st fs p hrec hdb]

/-! ## Mapper determinism lemmas -/

theorem mapUserMessage_now_indep (lib : Stdlib) (now1 now2 : Int) (path : String)
    (n : Nat) (e : RawEntry)
    (hpt : parseTimestamp lib now1 e.timestamp = parseTimestamp lib now2 e.timestamp) :
    mapUserMessage lib now1 path n e = mapUserMessage lib now2 path n e := by
  rw [mapUserMessage, mapUserMessage]
  cases ParseMessage lib e <;> simp [hpt]

theorem mapAssistantMessage_now_indep (lib : Stdlib) (now1 now2 : Int) (path : String)
    (n : Nat) (e : RawEntry)
    (hpt : parseTimestamp lib now1 e.timestamp = parseTimestamp lib now2 e.timestamp) :
    mapAssistantMessage lib now1 path n e = mapAssistantMessage lib now2 path n e := by
  rw [mapAssistantMessage, mapAssistantMessage]
  cases ParseMessage lib e <;> simp [hpt]

theorem mapSummary_now_indep (lib : Stdlib) (now1 now2 : Int) (path : String)
    (n : Nat) (e : RawEntry)
    (hpt : parseTimestamp lib now1 e.timestamp = parseTimestamp lib now2 e.timestamp) :
    mapSummary lib now1 path n e = mapSummary lib now2 path n e := by
  rw [mapSummary, mapSummary]
  simp [hpt]

theorem mapSystemMessage_now_indep (lib : Stdlib) (now1 now2 : Int) (path : String)
    (n : Nat) (e : RawEntry)
    (hpt : parseTimestamp lib now1 e.timestamp = parseTimestamp lib now2 e.timestamp) :
    mapSystemMessage lib now1 path n e = mapSystemMessage lib now2 path n e := by
  rw [mapSystemMessage, mapSystemMessage]
  cases ParseMessage lib e <;> simp [hpt]

/-! ## Concrete fixtures for witnesses and counterexamples -/

def exUser1 : RawEntry := { type := "user", uuid := "ua1", sessionId := "S" }
def exUser2 : RawEntry := { type := "user", uuid := "ua2", sessionId := "S" }
def exUserB : RawEntry := { type := "user", uuid := "ub1", sessionId := "S" }
def exBadPayload : RawEntry := { type := "user", uuid := "ux1", message := some "BAD" }
def exTsEmpty : RawEntry := { type := "user", uuid := "u", sessionId := "S" }
def exTsParsed : RawEntry :=
  { type := "user", uuid := "u", sessionId := "S", timestamp := "T" }

/-- A concrete standard library for witnesses: the hash is modelled by
the identity (the fixture inputs are short and pairwise distinct), one
parseable timestamp string, one failing payload, and a decoder for four
fixture lines. -/
def exLib : Stdlib :=
  { sha256hex := fun s => s
    parseRFC3339 := fun s => if s = "T" then some 5 else none
    parseRFC3339Nano := fun _ => none
    unmarshalMessage := fun s =>
      if s = "BAD" then Except.error "bad payload" else Except.ok {}
    decodeEntry := fun l =>
      if l = "a1".toList then Except.ok exUser1
      else if l = "a2".toList then Except.ok exUser2
      else if l = "b1".toList then Except.ok exUserB
      else if l = "x1".toList then Except.ok exBadPayload
      else Except.error "bad json" }

/-- A backend that fails exactly on line 2 of file `A`. -/
def exEnvFailA2 : Env :=
  { lib := exLib
    sendOk := fun sp => decide (¬ (sp.sourceFile = "A" ∧ sp.sourceLine = 2))
    isSyncedErr := fun _ _ => false
    recordSyncedErr := fun _ _ => false
    now := 100
    backendName := "console" }

/-- A backend that always succeeds, with no store faults. -/
def exEnvOk : Env :=
  { lib := exLib
    sendOk := fun _ => true
    isSyncedErr := fun _ _ => false
    recordSyncedErr := fun _ _ => false
    now := 100
    backendName := "console" }

/-- All dedup lookups fail (the query error case of `IsSynced`). -/
def exEnvIsSyncedFail : Env :=
  { lib := exLib
    sendOk := fun _ => true
    isSyncedErr := fun _ _ => true
    recordSyncedErr := fun _ _ => false
    now := 100
    backendName := "console" }

/-- All dedup record writes fail (the `Exec` error case of
`RecordSyncedMessage`). -/
def exEnvRecordFail : Env :=
  { lib := exLib
    sendOk := fun _ => true
    isSyncedErr := fun _ _ => false
    recordSyncedErr := fun _ _ => true
    now := 100
    backendName := "console" }

/-- Two files: `A` with two entries, `B` with one. -/
def exFS : FS := fun p =>
  if p = "A" then some ⟨("a1\na2").toList, 1⟩
  else if p = "B" then some ⟨("b1").toList, 1⟩
  else none

/-- The file `A` after appending one line (size 5 > 3, new mtime). -/
def exFSGrown : FS := fun p =>
  if p = "A" then some ⟨("a1\na2").toList, 2⟩ else none

def exSyncer : Syncer := NewSyncer ⟨"db", "proj", 0, false⟩
def exSyncerDry : Syncer := NewSyncer ⟨"db", "proj", 0, true⟩

/-- The state row left by a first pass over `A` when it contained only
the line `a1` (offset and size 3 = two bytes plus the newline). -/
def exRowA : SyncState := ⟨"A", 3, 3, 1, "S", 1, 50, "console"⟩

/-- The state row left by a pass over `B` with content `b1`. -/
def exRowB : SyncState := ⟨"B", 2, 2, 1, "S", 1, 50, "console"⟩

/-- The store after that first pass: the row for `A` and the dedup hash
of its first entry. -/
def exStoreA : Store := ⟨[exRowA], [⟨"A", "userSua1", "ua1", 50⟩], []⟩

/-! ## Claims -/

/-- Claim C6: for every mapped entry the span identifier is the entry
UUID verbatim when nonempty and otherwise the first 16 hex characters
of SHA-256 over (file path, line number, timestamp, payload bytes); and
the dedup content hash is the first 32 hex characters of SHA-256 over
(discriminant, session id, timestamp, entry UUID, payload bytes) — the
source functions coincide with the spec-worded definitions. -/
theorem c6_span_identity (lib : Stdlib) (path : String) (n : Nat) (e : RawEntry) :
    (e.uuid ≠ "" → generateSpanID lib path n e = e.uuid) ∧
    generateSpanID lib path n e = spanIdSpec lib path n e ∧
    GenerateMessageHash lib e = contentHashSpec lib e := by
  refine ⟨fun h => by rw [generateSpanID, if_pos h], ?_, rfl⟩
  by_cases h : e.uuid = "" <;> simp [generateSpanID, spanIdSpec, h]

/-- Witness for C6 at a concrete entry with a nonempty UUID. -/
theorem c6_span_identity_witness :
    (exUser1.uuid ≠ "" ∧ generateSpanID exLib "f" 1 exUser1 = exUser1.uuid) ∧
    GenerateMessageHash exLib exUser1 = contentHashSpec exLib exUser1 :=
  ⟨⟨by decide, (c6_span_identity exLib "f" 1 exUser1).1 (by decide)⟩,
    (c6_span_identity exLib "f" 1 exUser1).2.2⟩

/-- Equality of fallible results is decidable (needed to evaluate the
witnesses and counterexamples). -/
instance {α β : Type} [DecidableEq α] [DecidableEq β] : DecidableEq (Except α β) :=
  fun a b =>
  match a, b with
  | Except.error x, Except.error y =>
    if h : x = y then isTrue (by rw [h]) else isFalse (by simp [h])
  | Except.error _, Except.ok _ => isFalse (by simp)
  | Except.ok _, Except.error _ => isFalse (by simp)
  | Except.ok x, Except.ok y =>
    if h : x = y then isTrue (by rw [h]) else isFalse (by simp [h])

/-- Claim C2 (counterexample): mapping the same entry and line number
at two different wall-clock instants does not give byte-equal spans
when the timestamp string is empty — the claim fails on exactly its
«empty or unparseable timestamp» case. -/
theorem c2_determinism_counterexample :
    ¬ (MapEntry exLib 0 "f" exTsEmpty 1 = MapEntry exLib 1 "f" exTsEmpty 1 ∧
       GenerateMessageHash exLib exTsEmpty = GenerateMessageHash exLib exTsEmpty) := by
  decide

/-- Claim C2 (amended): the content hash is always deterministic, and
the mapper yields byte-equal spans across runs whenever the timestamp
string is nonempty and parses under RFC 3339 or its sub-second variant;
for an empty or unparseable timestamp the current wall clock enters the
start and end times, so spans from different instants may differ. -/
theorem c2_mapper_determinism (lib : Stdlib) (now1 now2 : Int) (path : String)
    (e : RawEntry) (n : Nat)
    (hts : ¬ e.timestamp = "")
    (hp : lib.parseRFC3339 e.timestamp ≠ none ∨ lib.parseRFC3339Nano e.timestamp ≠ none) :
    MapEntry lib now1 path e n = MapEntry lib now2 path e n ∧
    GenerateMessageHash lib e = GenerateMessageHash lib e := by
  have hpt : parseTimestamp lib now1 e.timestamp = parseTimestamp lib now2 e.timestamp := by
    rw [parseTimestamp, parseTimestamp, if_neg hts, if_neg hts]
    rcases h1 : lib.parseRFC3339 e.timestamp with _ | t
    · rcases h2 : lib.parseRFC3339Nano e.timestamp with _ | t2
      · rcases hp with hp | hp
        · exact absurd h1 hp
        · exact absurd h2 hp
      · rfl
    · rfl
  refine ⟨?_, rfl⟩
  rw [MapEntry, MapEntry]
  split_ifs
  · exact mapUserMessage_now_indep lib now1 now2 path n e hpt
  · exact mapAssistantMessage_now_indep lib now1 now2 path n e hpt
  · exact mapSummary_now_indep lib now1 now2 path n e hpt
  · exact mapSystemMessage_now_indep lib now1 now2 path n e hpt
  · rfl

/-- Witness for C2 (amended) at a concrete entry whose timestamp
parses. -/
theorem c2_mapper_determinism_witness :
    (¬ exTsParsed.timestamp = "" ∧ exLib.parseRFC3339 exTsParsed.timestamp ≠ none) ∧
    MapEntry exLib 0 "f" exTsParsed 1 = MapEntry exLib 7 "f" exTsParsed 1 :=
  ⟨⟨by decide, by decide⟩,
    (c2_mapper_determinism exLib 0 7 "f" exTsParsed 1 (by decide)
      (Or.inl (by decide))).1⟩

/-- The store holding only the unchanged row for `B`. -/
def exStoreB : Store := ⟨[exRowB], [], []⟩

/-- A concrete span for per-entry witnesses. -/
def exSpan : Span :=
  { id := "ua1", startTime := 0, endTime := 0, kind := SpanKind.span,
    name := "user-message", sourceFile := "A", sourceLine := 1 }

/-- Claim C5: when the current size and mtime equal the stored pair,
the per-file sync is a no-op — zero spans, `updated = false`, no error,
store untouched, nothing emitted; the result does not depend on the
file content beyond its length, so the file is never read. -/
theorem c5_unchanged_noop (env : Env) (sy : Syncer) (st : Store) (fs : FS) (path : String)
    (fi : FileInfo) (row : SyncState)
    (hrec : sy.shouldRecord = true)
    (hfa : fs path = some fi)
    (hrow : Store.GetState st path = some row)
    (hsz : fi.content.length = row.lastSize)
    (hmt : fi.mtime = row.lastMtime) :
    syncFile env sy st fs path = ⟨0, false, none, st, []⟩ := by
  have hstrat : determineSyncStrategy sy st path fi.content.length fi.mtime = (none, st) := by
    rw [determineSyncStrategy, if_neg (by simp [hrec])]
    simp only [hrow]
    rw [if_neg (by omega)]
    rw [if_pos ⟨hmt, hsz⟩]
  rw [syncFile, hfa]
  dsimp only
  rw [hstrat]

/-- Witness for C5: the unchanged file `B`. -/
theorem c5_unchanged_noop_witness :
    (exSyncer.shouldRecord = true ∧ exFS "B" = some ⟨("b1").toList, 1⟩ ∧
      Store.GetState exStoreB "B" = some exRowB ∧
      (("b1").toList : List Char).length = exRowB.lastSize ∧
      (1 : Int) = exRowB.lastMtime) ∧
    syncFile exEnvOk exSyncer exStoreB exFS "B" = ⟨0, false, none, exStoreB, []⟩ :=
  ⟨⟨by decide, by decide, by decide, by decide, by decide⟩,
    c5_unchanged_noop exEnvOk exSyncer exStoreB exFS "B" ⟨("b1").toList, 1⟩ exRowB
      (by decide) (by decide) (by decide) (by decide) (by decide)⟩

/-- Claim C3: a shrunken file (current size < stored size) yields a
full-resync strategy from offset 0 with initial line count 0, with the
dedup set of the file and its state row both cleared before any entry
is processed or emitted: the whole per-file pass equals processing the
full content from the cleared store. -/
theorem c3_compaction_recovery (env : Env) (sy : Syncer) (st : Store) (fs : FS)
    (path : String) (fi : FileInfo) (row : SyncState)
    (hrec : sy.shouldRecord = true)
    (hrow : Store.GetState st path = some row)
    (hfa : fs path = some fi)
    (hsz : fi.content.length < row.lastSize) :
    determineSyncStrategy sy st path fi.content.length fi.mtime =
      (some ⟨0, 0, true⟩, Store.DeleteState (Store.ClearFileMessages st path) path) ∧
    Store.GetState (Store.DeleteState (Store.ClearFileMessages st path) path) path = none ∧
    (∀ r ∈ (Store.DeleteState (Store.ClearFileMessages st path) path).synced,
        ¬ r.filePath = path) ∧
    syncFile env sy st fs path =
      (let cleared := Store.DeleteState (Store.ClearFileMessages st path) path
       let r := processEntries env sy path cleared 0 "" (splitLines fi.content)
       match r.err with
       | some e => ⟨r.spans, decide (0 < r.spans), some e, r.store, r.emitted⟩
       | none =>
         ⟨r.spans, decide (0 < r.spans), none,
           Store.SaveState r.store
             ⟨path, fi.content.length, fi.content.length, fi.mtime, r.traceId, r.lineNum,
              env.now, env.backendName⟩, r.emitted⟩) := by
  have hstrat : determineSyncStrategy sy st path fi.content.length fi.mtime =
      (some ⟨0, 0, true⟩, Store.DeleteState (Store.ClearFileMessages st path) path) := by
    rw [determineSyncStrategy, if_neg (by simp [hrec])]
    simp only [hrow]
    rw [if_pos hsz]
  refine ⟨hstrat, getState_deleteState_self _ _, ?_, ?_⟩
  · intro r hr
    have hmem := (List.mem_filter.mp hr).2
    simpa using hmem
  · rw [syncFile, hfa]
    dsimp only
    rw [hstrat]
    dsimp only
    simp only [List.drop_zero, Nat.zero_add]
    rw [if_pos hrec]

/-- Witness for C3: file `A` shrunk below its stored size. -/
theorem c3_compaction_recovery_witness :
    (exSyncer.shouldRecord = true ∧
      Store.GetState ⟨[⟨"A", 9, 9, 1, "S", 3, 50, "console"⟩], [⟨"A", "h", "i", 50⟩], []⟩
        "A" = some ⟨"A", 9, 9, 1, "S", 3, 50, "console"⟩ ∧
      exFS "A" = some ⟨("a1\na2").toList, 1⟩ ∧
      (("a1\na2").toList : List Char).length < 9) ∧
    determineSyncStrategy exSyncer
        ⟨[⟨"A", 9, 9, 1, "S", 3, 50, "console"⟩], [⟨"A", "h", "i", 50⟩], []⟩ "A"
        (("a1\na2").toList : List Char).length 1 =
      (some ⟨0, 0, true⟩,
        Store.DeleteState
          (Store.ClearFileMessages
            ⟨[⟨"A", 9, 9, 1, "S", 3, 50, "console"⟩], [⟨"A", "h", "i", 50⟩], []⟩ "A") "A") :=
  ⟨⟨by decide, by decide, by decide, by decide⟩,
    (c3_compaction_recovery exEnvOk exSyncer
      ⟨[⟨"A", 9, 9, 1, "S", 3, 50, "console"⟩], [⟨"A", "h", "i", 50⟩], []⟩ exFS "A"
      ⟨("a1\na2").toList, 1⟩ ⟨"A", 9, 9, 1, "S", 3, 50, "console"⟩
      (by decide) (by decide) (by decide) (by decide)).1⟩

/-- Claim C10: per-entry store failures are fail-open.  A failing dedup
lookup is discarded and the entry is treated as not yet synced and sent
(even if a matching dedup row exists); a failing record of the synced
entry is discarded, the store is unchanged, and the entry still counts
as sent. -/
theorem c10_store_fail_open (env : Env) (sy : Syncer) (st : Store) (e : RawEntry)
    (span : Span) (path : String)
    (hrec : sy.shouldRecord = true) :
    (env.isSyncedErr path (GenerateMessageHash env.lib e) = true →
      env.sendOk span = true →
      processAndSendEntry env sy st e span path =
        ⟨true, (dbRecordSynced env st path (GenerateMessageHash env.lib e) span.id).1,
          none⟩) ∧
    (env.recordSyncedErr path (GenerateMessageHash env.lib e) = true →
      env.isSyncedErr path (GenerateMessageHash env.lib e) = false →
      Store.IsSynced st path (GenerateMessageHash env.lib e) = false →
      env.sendOk span = true →
      processAndSendEntry env sy st e span path = ⟨true, st, none⟩) := by
  constructor
  · intro hq hsend
    rw [processAndSendEntry]
    rw [if_neg (by simp [dbIsSynced, hq])]
    rw [if_neg (by simp [hsend])]
    rw [if_pos hrec]
  · intro hw hq hsy hsend
    rw [processAndSendEntry]
    rw [if_neg (by simp [dbIsSynced, hq, hsy])]
    rw [if_neg (by simp [hsend])]
    rw [if_pos hrec]
    rw [dbRecordSynced, if_pos hw]

/-- Witness for C10: both fault oracles exercised on a concrete entry,
with a matching dedup row present in the lookup-failure case. -/
theorem c10_store_fail_open_witness :
    (exEnvIsSyncedFail.isSyncedErr "A" (GenerateMessageHash exLib exUser1) = true ∧
      processAndSendEntry exEnvIsSyncedFail exSyncer exStoreA exUser1 exSpan "A" =
        ⟨true, (dbRecordSynced exEnvIsSyncedFail exStoreA "A"
          (GenerateMessageHash exLib exUser1) exSpan.id).1, none⟩) ∧
    (exEnvRecordFail.recordSyncedErr "A" (GenerateMessageHash exLib exUser1) = true ∧
      processAndSendEntry exEnvRecordFail exSyncer Store.empty exUser1 exSpan "A" =
        ⟨true, Store.empty, none⟩) :=
  ⟨⟨by decide,
      (c10_store_fail_open exEnvIsSyncedFail exSyncer exStoreA exUser1 exSpan "A"
        (by decide)).1 (by decide) (by decide)⟩,
    ⟨by decide,
      (c10_store_fail_open exEnvRecordFail exSyncer Store.empty exUser1 exSpan "A"
        (by decide)).2 (by decide) (by decide) (by decide) (by decide)⟩⟩

/-- Claim C8: a mapper error on one entry is recorded to the error log
when a database is present, the entry is skipped, and the pass
continues with the remaining entries — the error never aborts the
file. -/
theorem c8_mapper_error_skip (env : Env) (sy : Syncer) (path : String) (st : Store)
    (n : Nat) (tid : String) (l : List Char) (rest : List (List Char)) (e : RawEntry)
    (m : String)
    (hlen : ¬ MaxScannerBuffer < l.length)
    (hne : ¬ l = [])
    (hdec : env.lib.decodeEntry l = Except.ok e)
    (hmap : MapEntry env.lib env.now path e (n + 1) = Except.error m) :
    processEntries env sy path st n tid (l :: rest) =
      processEntries env sy path
        (if sy.hasDB = true then Store.RecordError st path m env.now else st) (n + 1)
        (if tid = "" ∧ e.sessionId ≠ "" then e.sessionId else tid) rest ∧
    (⟨path, m, env.now⟩ : ErrorRow) ∈ (Store.RecordError st path m env.now).errors := by
  constructor
  · rw [processEntries, if_neg hlen, if_neg hne]
    simp only [hdec, hmap]
  · rw [Store.RecordError]
    simp

/-- Witness for C8: a concrete entry whose payload fails to decode. -/
theorem c8_mapper_error_skip_witness :
    (exLib.decodeEntry ("x1").toList = Except.ok exBadPayload ∧
      MapEntry exLib 100 "A" exBadPayload 1 =
        Except.error "parsing user message: parsing message: bad payload") ∧
    processEntries exEnvOk exSyncer "A" Store.empty 0 "" [("x1").toList] =
      processEntries exEnvOk exSyncer "A"
        (Store.RecordError Store.empty "A"
          "parsing user message: parsing message: bad payload" 100) 1 "" [] :=
  ⟨⟨by decide, by decide⟩, by
    have h := (c8_mapper_error_skip exEnvOk exSyncer "A" Store.empty 0 "" ("x1").toList []
      exBadPayload "parsing user message: parsing message: bad payload"
      (by decide) (by decide) (by decide) (by decide)).1
    simpa using h⟩

/-- Claim C9: the streaming parser silently skips empty lines, fails
the scan on any line beyond the 10 MiB bound, aborts on the first line
that is not valid JSON, and iteration never returns entries situated
after an erroring line. -/
theorem c9_parser_behaviour (lib : Stdlib) :
    (∀ rest, parserNext lib ([] :: rest) = parserNext lib rest) ∧
    (∀ (l : List Char) rest, MaxScannerBuffer < l.length →
      parserNext lib (l :: rest) = Except.error "scanning: token too long") ∧
    (∀ (l : List Char) rest e, ¬ MaxScannerBuffer < l.length → ¬ l = [] →
      lib.decodeEntry l = Except.error e →
      parserNext lib (l :: rest) = Except.error ("parsing JSON: " ++ e)) ∧
    (∀ pre bad post, errLine lib bad = true →
      parseAllLines lib (pre ++ bad :: post) = parseAllLines lib (pre ++ [bad])) := by
  refine ⟨?_, ?_, ?_, ?_⟩
  · intro rest
    rw [parserNext, if_neg (by simp), if_pos rfl]
  · intro l rest h
    rw [parserNext, if_pos h]
  · intro l rest e h1 h2 hdec
    rw [parserNext, if_neg h1, if_neg h2, hdec]
  · intro pre bad post hbad
    induction pre with
    | nil =>
      rw [errLine] at hbad
      simp only [List.nil_append]
      rw [parseAllLines, parseAllLines]
      by_cases h1 : MaxScannerBuffer < bad.length
      · rw [if_pos h1, if_pos h1]
      · rw [if_neg h1] at hbad
        by_cases h2 : bad = []
        · rw [if_pos h2] at hbad
          exact absurd hbad (by simp)
        · rw [if_neg h2] at hbad
          rw [if_neg h1, if_neg h1, if_neg h2, if_neg h2]
          rcases hdec : lib.decodeEntry bad with er | e2
          · rfl
          · rw [hdec] at hbad
            exact absurd hbad (by simp)
    | cons x pre ih =>
      simp only [List.cons_append]
      rw [parseAllLines, parseAllLines]
      by_cases h1 : MaxScannerBuffer < x.length
      · rw [if_pos h1, if_pos h1]
      · rw [if_neg h1, if_neg h1]
        by_cases h2 : x = []
        · rw [if_pos h2, if_pos h2]
          exact ih
        · rw [if_neg h2, if_neg h2]
          rcases hdec : lib.decodeEntry x with er | e2
          · rfl
          · rw [ih]

/-- Witness for C9 at concrete tokens: an empty line, an oversized
line, an invalid line, and a stream whose lines after the invalid line
are dropped. -/
theorem c9_parser_behaviour_witness :
    parserNext exLib ([] :: [("a1").toList]) = parserNext exLib [("a1").toList] ∧
    parserNext exLib (List.replicate (MaxScannerBuffer + 1) 'z' :: []) =
      Except.error "scanning: token too long" ∧
    parserNext exLib [("zz").toList] = Except.error "parsing JSON: bad json" ∧
    parseAllLines exLib ([("a1").toList] ++ ("zz").toList :: [("b1").toList]) =
      parseAllLines exLib ([("a1").toList] ++ [("zz").toList]) :=
  ⟨(c9_parser_behaviour exLib).1 [("a1").toList],
    (c9_parser_behaviour exLib).2.1 (List.replicate (MaxScannerBuffer + 1) 'z') []
      (by rw [List.length_replicate]; omega),
    (c9_parser_behaviour exLib).2.2.1 ("zz").toList [] "bad json"
      (by decide) (by decide) (by decide),
    (c9_parser_behaviour exLib).2.2.2 [("a1").toList] ("zz").toList [("b1").toList]
      (by decide)⟩

/-- Claim C7: with `dry_run = true` the constructor never opens the
database, a whole `sync_all` performs no store write at all (any store,
any files, any backend behaviour), and the dedup check is skipped, so
against an accepting backend every mappable entry is emitted even when
its hash is already recorded in the dedup table. -/
theorem c7_dry_run_purity (opts : SyncerOptions) (env : Env) (st : Store) (fs : FS)
    (files : List String) (hd : opts.dryRun = true) :
    (NewSyncer opts).hasDB = false ∧
    (SyncAll env (NewSyncer opts) st fs files).2.1 = st ∧
    (∀ (path : String) (st2 : Store) (n : Nat) (tid : String) (lines : List (List Char)),
      decodeOk env.lib lines = true →
      (∀ sp, env.sendOk sp = true) →
      (processEntries env (NewSyncer opts) path st2 n tid lines).emitted =
        mappedSpans env.lib env.now path n lines ∧
      (processEntries env (NewSyncer opts) path st2 n tid lines).spans =
        (mappedSpans env.lib env.now path n lines).length) := by
  have hdb : (NewSyncer opts).hasDB = false := by
    rw [NewSyncer]
    simp [hd]
  have hrec : (NewSyncer opts).shouldRecord = false := by
    rw [Syncer.shouldRecord, NewSyncer]
    simp [hd]
  refine ⟨hdb, ?_, ?_⟩
  · rw [SyncAll]
    exact runAll_dry_store env _ fs hrec hdb files st
  · intro path st2 n tid lines hdec hsend
    obtain ⟨_, hem, hsp⟩ :=
      processEntries_dry_emits env _ path hrec hdb hsend lines st2 n tid hdec
    exact ⟨hem, hsp⟩

/-- Witness for C7: a dry-run pass over the two fixture files starting
from a store already holding state and dedup rows; the store is
untouched and the dedup row for the first entry does not suppress its
emission. -/
theorem c7_dry_run_purity_witness :
    (NewSyncer ⟨"db", "proj", 0, true⟩).hasDB = false ∧
    (SyncAll exEnvOk (NewSyncer ⟨"db", "proj", 0, true⟩) exStoreA exFS ["A", "B"]).2.1 =
      exStoreA ∧
    (processEntries exEnvOk (NewSyncer ⟨"db", "proj", 0, true⟩) "A" exStoreA 0 ""
        [("a1").toList, ("a2").toList]).emitted =
      mappedSpans exEnvOk.lib exEnvOk.now "A" 0 [("a1").toList, ("a2").toList] :=
  ⟨(c7_dry_run_purity ⟨"db", "proj", 0, true⟩ exEnvOk exStoreA exFS ["A", "B"] rfl).1,
    (c7_dry_run_purity ⟨"db", "proj", 0, true⟩ exEnvOk exStoreA exFS ["A", "B"] rfl).2.1,
    ((c7_dry_run_purity ⟨"db", "proj", 0, true⟩ exEnvOk exStoreA exFS ["A", "B"] rfl).2.2
      "A" exStoreA 0 "" [("a1").toList, ("a2").toList] (by decide) (fun _ => rfl)).1⟩

/-- Claim C4: when a tracked file has grown (stored offset and size =
length of the old prefix, new lines appended), the pass seeks to the
stored offset and — on a clean run — emits exactly the spans obtained
by mapping the new entries at the continued line numbers (minus those
that map to none), and then persists a state row whose offset equals
the file size and whose size and mtime are those observed at the
stat. -/
theorem c4_append_correctness (env : Env) (sy : Syncer) (st : Store) (fs : FS)
    (path : String) (old newPart : List Char) (fi : FileInfo) (row : SyncState)
    (hrec : sy.shouldRecord = true)
    (hfa : fs path = some fi)
    (hcontent : fi.content = old ++ newPart)
    (hrow : Store.GetState st path = some row)
    (hoff : row.lastOffset = old.length)
    (hsize : row.lastSize = old.length)
    (hgrew : old.length < fi.content.length)
    (hclean : cleanRun env sy path st row.messageCount (splitLines newPart) = true) :
    (syncFile env sy st fs path).err = none ∧
    (syncFile env sy st fs path).emitted =
      mappedSpans env.lib env.now path row.messageCount (splitLines newPart) ∧
    (syncFile env sy st fs path).spans =
      (mappedSpans env.lib env.now path row.messageCount (splitLines newPart)).length ∧
    (∃ nrow, Store.GetState (syncFile env sy st fs path).store path = some nrow ∧
      nrow.lastOffset = fi.content.length ∧ nrow.lastSize = fi.content.length ∧
      nrow.lastMtime = fi.mtime) := by
  have hstrat : determineSyncStrategy sy st path fi.content.length fi.mtime =
      (some ⟨row.lastOffset, row.messageCount, false⟩, st) := by
    rw [determineSyncStrategy, if_neg (by simp [hrec])]
    simp only [hrow]
    rw [if_neg (by omega)]
    rw [if_neg (fun hc => absurd hc.2 (by omega))]
  have hdrop : fi.content.drop row.lastOffset = newPart := by
    rw [hoff, hcontent]
    exact List.drop_left old newPart
  rw [syncFile, hfa]
  dsimp only
  rw [hstrat]
  dsimp only
  rw [hdrop]
  obtain ⟨herr, hem, hsp⟩ := processEntries_of_cleanRun env sy path (splitLines newPart) st
    row.messageCount "" hclean
  simp only [herr]
  rw [if_pos hrec]
  refine ⟨rfl, hem, hsp, ⟨_, getState_saveState_self _ _, ?_, rfl, rfl⟩⟩
  dsimp only
  rw [hoff, hcontent, List.length_append]

set_option maxRecDepth 1000000 in
/-- Witness for C4: the file `A` grown from `a1` (3 bytes, 1 entry
recorded) to `a1`, `a2` (5 bytes); the second pass emits exactly the
span of the appended entry and stores offset 5. -/
theorem c4_append_correctness_witness :
    (exSyncer.shouldRecord = true ∧
      cleanRun exEnvOk exSyncer "A" exStoreA exRowA.messageCount
        (splitLines ("a2").toList) = true) ∧
    (syncFile exEnvOk exSyncer exStoreA exFSGrown "A").err = none ∧
    (syncFile exEnvOk exSyncer exStoreA exFSGrown "A").emitted =
      mappedSpans exEnvOk.lib exEnvOk.now "A" exRowA.messageCount
        (splitLines ("a2").toList) :=
  ⟨⟨by decide, by decide⟩,
    (c4_append_correctness exEnvOk exSyncer exStoreA exFSGrown "A"
      ("a1\n").toList ("a2").toList ⟨("a1\na2").toList, 2⟩ exRowA
      (by decide) (by decide) (by decide) (by decide) (by decide) (by decide)
      (by decide) (by decide)).1,
    (c4_append_correctness exEnvOk exSyncer exStoreA exFSGrown "A"
      ("a1\n").toList ("a2").toList ⟨("a1\na2").toList, 2⟩ exRowA
      (by decide) (by decide) (by decide) (by decide) (by decide) (by decide)
      (by decide) (by decide)).2.1⟩

set_option maxRecDepth 1000000 in
/-- Claim C1 (counterexample): two files, the backend failing on the
second entry of file A.  The error is reported and file B completes,
but the aggregated spans_synced (1) differs from the count of
successfully emitted spans across both files (2 — the span file A
emitted before the failure is dropped from the aggregate), refuting the
claim as stated. -/
theorem c1_aggregation_counterexample :
    (SyncAll exEnvFailA2 exSyncer Store.empty exFS ["A", "B"]).1.errors.length = 1 ∧
    ((SyncAll exEnvFailA2 exSyncer Store.empty exFS ["A", "B"]).2.2).length = 2 ∧
    (SyncAll exEnvFailA2 exSyncer Store.empty exFS ["A", "B"]).1.spansSynced ≠
      ((SyncAll exEnvFailA2 exSyncer Store.empty exFS ["A", "B"]).2.2).length :=
  ⟨by decide, by decide, by decide⟩

/-- Claim C1 (amended): if file a aborts with an error while file b
completes, `sync_all` over the two files reports exactly a with its
error, leaves the state row of a unchanged, aggregates the spans of b
alone — the spans a emitted before its failure are returned by its
per-file pass (spans = emitted count, per file) but are excluded from
the aggregated spans_synced — and the emission log is the
concatenation of both files logs. -/
theorem c1_backend_failure_isolated (env : Env) (sy : Syncer) (st : Store) (fs : FS)
    (a b : String) (sta : SyncState) (e : String)
    (hab : ¬ b = a)
    (hrow : Store.GetState st a = some sta)
    (hfi : ∀ fi, fs a = some fi → sta.lastSize ≤ fi.content.length)
    (ha : (syncFile env sy st fs a).err = some e)
    (hb : (syncFile env sy (syncFile env sy st fs a).store fs b).err = none) :
    (SyncAll env sy st fs [a, b]).1.errors = [(a, e)] ∧
    Store.GetState (SyncAll env sy st fs [a, b]).2.1 a = some sta ∧
    (SyncAll env sy st fs [a, b]).1.spansSynced =
      (syncFile env sy (syncFile env sy st fs a).store fs b).spans ∧
    (SyncAll env sy st fs [a, b]).2.2 =
      (syncFile env sy st fs a).emitted ++
        (syncFile env sy (syncFile env sy st fs a).store fs b).emitted ∧
    (syncFile env sy st fs a).spans = (syncFile env sy st fs a).emitted.length ∧
    (syncFile env sy (syncFile env sy st fs a).store fs b).spans =
      (syncFile env sy (syncFile env sy st fs a).store fs b).emitted.length := by
  simp only [SyncAll, runAll]
  simp only [ha, hb]
  refine ⟨trivial, ?_, by simp, by simp, syncFile_spans_emitted env sy st fs a,
    syncFile_spans_emitted env sy _ fs b⟩
  rw [syncFile_getState_ne env sy _ fs a b (fun h => hab h.symm)]
  exact syncFile_err_getState env sy st fs a sta e hrow hfi ha

set_option maxRecDepth 1000000 in
/-- Witness for C1 (amended): file A fails on its second entry while
file B completes; the aggregate reports exactly the error of A and the
state row of A keeps its pre-run value. -/
theorem c1_backend_failure_isolated_witness :
    ((syncFile exEnvFailA2 exSyncer exStoreA exFS "A").err =
        some "sending span: backend error" ∧
      (syncFile exEnvFailA2 exSyncer
        (syncFile exEnvFailA2 exSyncer exStoreA exFS "A").store exFS "B").err = none) ∧
    (SyncAll exEnvFailA2 exSyncer exStoreA exFS ["A", "B"]).1.errors =
      [("A", "sending span: backend error")] ∧
    Store.GetState (SyncAll exEnvFailA2 exSyncer exStoreA exFS ["A", "B"]).2.1 "A" =
      some exRowA :=
  ⟨⟨by decide, by decide⟩,
    (c1_backend_failure_isolated exEnvFailA2 exSyncer exStoreA exFS "A" "B" exRowA
      "sending span: backend error" (by decide) (by decide)
      (fun fi h => by
        rw [show exFS "A" = some (⟨("a1\na2").toList, 1⟩ : FileInfo) from rfl] at h
        injection h with h2
        rw [← h2]
        decide)
      (by decide) (by decide)).1,
    (c1_backend_failure_isolated exEnvFailA2 exSyncer exStoreA exFS "A" "B" exRowA
      "sending span: backend error" (by decide) (by decide)
      (fun fi h => by
        rw [show exFS "A" = some (⟨("a1\na2").toList, 1⟩ : FileInfo) from rfl] at h
        injection h with h2
        rw [← h2]
        decide)
      (by decide) (by decide)).2.1⟩

end Ch
